import Mathlib

/-!
Verification of the SignAR speech-to-sign pipeline.

Strings of the TypeScript source are modelled as `List Char`; token lists as
`List String`.  Each definition is a direct translation of the corresponding
source function (file and line references in the doc comments).
-/

namespace SignAR

/-! ## Character-level model of the JavaScript string primitives -/

/-- JS whitespace class `\s`, restricted to the ASCII whitespace characters
(space, tab, line feed, vertical tab, form feed, carriage return). -/
def isWs (c : Char) : Bool :=
  c = ' ' || c = '\t' || c = '\n' || c = '\x0b' || c = '\x0c' || c = '\r'

/-- JS word-character class `\w` = `[A-Za-z0-9_]`. -/
def isWordChar (c : Char) : Bool :=
  c.isAlpha || c.isDigit || c = '_'

/-- `String.prototype.toUpperCase`, character by character. -/
def upperStr (l : List Char) : List Char := l.map Char.toUpper

/-- `String.prototype.toLowerCase`, character by character. -/
def lowerStr (l : List Char) : List Char := l.map Char.toLower

/-- `String.prototype.trim`: whitespace removed from both ends. -/
def trimStr (l : List Char) : List Char :=
  ((l.dropWhile isWs).reverse.dropWhile isWs).reverse

/-! ## Normalization steps of the two source normalizers -/

/-- Characters kept by the regex `/[^\\w\\s-]/g` of
`SpeechProcessor.processRecognizedText` (src/unnamed/part_000:238).  Inside a
character class `\\` denotes a literal backslash, so the class keeps exactly
backslash, the letter `w`, the letter `s` and the hyphen. -/
def keepSpeech (c : Char) : Bool :=
  c = '\\' || c = 'w' || c = 's' || c = '-'

/-- The normalization step of `SpeechProcessor.processRecognizedText`
(src/unnamed/part_000:235-238): uppercase, trim, then strip by
`/[^\\w\\s-]/g`. -/
def speechNormalize (l : List Char) : List Char :=
  (trimStr (upperStr l)).filter keepSpeech

/-- Characters kept by the regex `/[^\w\s-]/g` of `getSignClip`
(src/src/utils/signDictionary.ts:193): word characters, whitespace, hyphen. -/
def keepDict (c : Char) : Bool :=
  isWordChar c || isWs c || c = '-'

/-- The normalization of `getSignClip` (src/src/utils/signDictionary.ts:191-194):
uppercase, strip by `/[^\w\s-]/g`, then trim. -/
def dictNormalize (l : List Char) : List Char :=
  trimStr ((upperStr l).filter keepDict)

/-- The normalization step exactly as the spec words it (spec §4.1): uppercase,
trim, strip all characters except word characters, whitespace and hyphen.
Stated only to be compared with `speechNormalize`, the definition translated
from the source. -/
def claimedSpeechNormalize (l : List Char) : List Char :=
  (trimStr (upperStr l)).filter keepDict

/-! ## WordSegmenter: `SpeechProcessor.intelligentWordSplit` / `findWordSplits`
(src/unnamed/part_000:282-327) -/

/-- `SpeechProcessor.commonWords` (src/unnamed/part_000:220-226). -/
def commonWords : List (List Char) :=
  (["HELLO", "GOOD", "MORNING", "EVENING", "NIGHT", "THANK", "YOU", "NAME", "IS",
    "HOW", "ARE", "WHERE", "WHAT", "WHO", "WHEN", "WHY", "CAN", "WILL", "NOT",
    "DO", "HAVE", "GET", "GO", "COME", "SEE", "HEAR", "SPEAK", "UNDERSTAND",
    "KNOW", "LEARN", "TEACH", "HELP", "WORK", "PLAY", "EAT", "DRINK", "SLEEP",
    "MY", "YOUR", "HIS", "HER", "OUR", "THEIR", "I", "WE", "THEY", "HE", "SHE"]
      : List String).map String.data

/-- The split-acceptance test of `findWordSplits` at cut position `i`
(src/unnamed/part_000:316-317): the left part is a common word AND the right
part is a common word or has length at least 3. -/
def splitCond (w : List Char) (i : Nat) : Bool :=
  commonWords.contains (w.take i) &&
    (commonWords.contains (w.drop i) || decide (3 ≤ (w.drop i).length))

/-- The cut-position search loop of `findWordSplits`
(src/unnamed/part_000:312-323): positions `i` with `i + 3 ≤ w.length` are
tested in increasing order starting from the given `i`; the first accepted
position is returned. -/
def findCutFrom (w : List Char) (i : Nat) : Option Nat :=
  if h : w.length < i + 3 then none
  else if splitCond w i then some i else findCutFrom w (i + 1)
termination_by w.length - i
decreasing_by omega

/-- `SpeechProcessor.findWordSplits` (src/unnamed/part_000:308-327): words of
length at most 4 are returned as a singleton; otherwise the first accepted cut
(searched from position 3) splits the word and the right part is split
recursively; with no accepted cut the word is returned as a singleton. -/
def findWordSplits (w : List Char) : List (List Char) :=
  if w.length ≤ 4 then [w]
  else
    match hcut : findCutFrom w 3 with
    | some i => w.take i :: findWordSplits (w.drop i)
    | none => [w]
termination_by w.length
decreasing_by
  have key : ∀ j i, findCutFrom w j = some i → j ≤ i ∧ i + 3 ≤ w.length := by
    intro j
    refine findCutFrom.induct w
      (fun j => ∀ i, findCutFrom w j = some i → j ≤ i ∧ i + 3 ≤ w.length) ?_ ?_ ?_ j
    · intro x hx i h
      rw [findCutFrom, dif_pos hx] at h
      exact absurd h (by simp)
    · intro x hx hc i h
      rw [findCutFrom, dif_neg hx, if_pos hc] at h
      have hi : i = x := (Option.some_inj.mp h).symm
      subst hi
      omega
    · intro x hx hc ih i h
      rw [findCutFrom, dif_neg hx, if_neg hc] at h
      have := ih i h
      omega
  have h3 := key 3 i hcut
  simp only [List.length_drop]
  omega

/-- The per-chunk treatment of `SpeechProcessor.intelligentWordSplit`
(src/unnamed/part_000:286-300): chunks of length at most 6 are kept whole;
otherwise `findWordSplits` is consulted and its result is used only when it
actually split the chunk (`splits.length > 1`). -/
def processChunk (w : List Char) : List (List Char) :=
  if w.length ≤ 6 then [w]
  else if 1 < (findWordSplits w).length then findWordSplits w else [w]

/-- Fuel-indexed twin of `findCutFrom`, structurally recursive on the fuel;
used to express (and compute with) the termination bound of the search loop. -/
def findCutFromF : Nat → List Char → Nat → Option Nat
  | 0, _, _ => none
  | fuel + 1, w, i =>
    if w.length < i + 3 then none
    else if splitCond w i then some i else findCutFromF fuel w (i + 1)

/-- Fuel-indexed twin of `findWordSplits`, structurally recursive on the fuel:
`none` means the fuel was exhausted before the recursion bottomed out. -/
def findWordSplitsF : Nat → List Char → Option (List (List Char))
  | 0, _ => none
  | fuel + 1, w =>
    if w.length ≤ 4 then some [w]
    else
      match findCutFromF w.length w 3 with
      | some i => (findWordSplitsF fuel (w.drop i)).map (fun r => w.take i :: r)
      | none => some [w]

/-! ## RepetitionResolver: sentence extraction (src/unnamed/part_000:351-436).
Token lists are modelled as `List String`; the JS index `-1` ("not found") is
modelled as `none`. -/

/-- The body of `SpeechProcessor.findLastOccurrenceOfAny`
(src/unnamed/part_000:397-404): the downward scan; `aux (k + 1)` inspects
index `k` first. -/
def findLastOccurrenceAux (words targets : List String) : Nat → Option Nat
  | 0 => none
  | k + 1 =>
    if targets.contains (words.getD k "") then some k
    else findLastOccurrenceAux words targets k

/-- `SpeechProcessor.findLastOccurrenceOfAny`: index of the last element of
`words` that belongs to `targets`. -/
def findLastOccurrenceOfAny (words targets : List String) : Option Nat :=
  findLastOccurrenceAux words targets words.length

/-- The sentence-starter set of `SpeechProcessor.findRepeatedPatterns`
(src/unnamed/part_000:375). -/
def sentenceStarters : List String :=
  ["HELLO", "HI", "GOOD", "MY", "I", "WE", "YOU"]

/-- The 3-token test of `SpeechProcessor.findLastNamePattern`
(src/unnamed/part_000:431): `words[k] = MY`, `words[k+1] = NAME`,
`words[k+2] = IS`. -/
def namePatternAt (words : List String) (k : Nat) : Bool :=
  words.getD k "" = "MY" && words.getD (k + 1) "" = "NAME" && words.getD (k + 2) "" = "IS"

/-- The downward loop of `SpeechProcessor.findLastNamePattern`
(src/unnamed/part_000:429-436); `aux (k + 1)` inspects index `k` first. -/
def findLastNameAux (words : List String) : Nat → Option Nat
  | 0 => none
  | k + 1 => if namePatternAt words k then some k else findLastNameAux words k

/-- `SpeechProcessor.findLastNamePattern`: the loop starts at index
`words.length - 3` (so `words.length - 2` indices are inspected). -/
def findLastNamePattern (words : List String) : Option Nat :=
  findLastNameAux words (words.length - 2)

/-- `SpeechProcessor.findMostCompleteSentence` (src/unnamed/part_000:409-424):
from two tokens before the last "MY NAME IS" (clamped at 0), otherwise the
last quartile (`Math.floor(length * 0.75)` = `3 * length / 4`). -/
def findMostCompleteSentence (words : List String) : List String :=
  match findLastNamePattern words with
  | some i => words.drop (i - 2)
  | none => words.drop (3 * words.length / 4)

/-- `SpeechProcessor.findRepeatedPatterns` (src/unnamed/part_000:371-392): the
tail from the last sentence starter (when found), then the
`findMostCompleteSentence` candidate (when nonempty). -/
def findRepeatedPatterns (words : List String) : List (List String) :=
  (match findLastOccurrenceOfAny words sentenceStarters with
    | some i => [words.drop i]
    | none => []) ++
  (if 0 < (findMostCompleteSentence words).length then [findMostCompleteSentence words] else [])

/-- `SpeechProcessor.extractFinalSentence` (src/unnamed/part_000:351-366):
with more than 3 tokens, the longest candidate of `findRepeatedPatterns` wins
(`reduce` keeps the earlier candidate on ties). -/
def extractFinalSentence (words : List String) : List String :=
  if words.length ≤ 3 then words
  else
    match findRepeatedPatterns words with
    | [] => words
    | p :: ps =>
      ps.foldl (fun longest current =>
        if longest.length < current.length then current else longest) p

/-! ## GlossTranslator data (src/unnamed/part_000:441-466 and
src/src/utils/signDictionary.ts) -/

/-- `String.prototype.toLowerCase` on whole tokens. -/
def lowerS (s : String) : String := String.mk (s.data.map Char.toLower)

/-- `String.prototype.toUpperCase` on whole tokens. -/
def upperS (s : String) : String := String.mk (s.data.map Char.toUpper)

/-- The local `signDictionary` array of `SpeechProcessor.validateWordsForSigning`
(src/unnamed/part_000:442-452). -/
def signDictionaryWords : List String :=
  ["hello", "good", "morning", "evening", "night", "thank", "you", "name", "is",
   "how", "are", "where", "what", "who", "when", "why", "can", "will", "not",
   "do", "have", "get", "go", "come", "see", "hear", "speak", "understand",
   "know", "learn", "teach", "help", "work", "play", "eat", "drink", "sleep",
   "my", "your", "his", "her", "our", "their", "i", "we", "they", "he", "she",
   "mother", "father", "sister", "brother", "family", "friend", "love", "like",
   "happy", "sad", "angry", "excited", "scared", "surprised", "tired",
   "one", "two", "three", "four", "five", "six", "seven", "eight", "nine", "ten",
   "home", "school", "hospital", "water", "food", "book", "car", "phone"]

/-- `SpeechProcessor.validateWordsForSigning` (src/unnamed/part_000:441-466):
each word is lowercased and appended to `valid` when it is in the dictionary,
to `missing` otherwise. -/
def validateWordsForSigning (words : List String) : List String × List String :=
  match words with
  | [] => ([], [])
  | w :: ws =>
    let (v, m) := validateWordsForSigning ws
    if signDictionaryWords.contains (lowerS w) then (lowerS w :: v, m)
    else (v, lowerS w :: m)

/-- Association-list reading of a JS object used as a string-keyed map;
`if (obj[k])` is truthy lookup, and every stored value here is a nonempty
string, so truthiness coincides with key presence. -/
def lookupA (m : List (String × String)) (k : String) : Option String :=
  (m.find? (fun e => e.1 = k)).map (fun e => e.2)

/-- `signDictionary` (src/src/utils/signDictionary.ts:13-144). -/
def signDictionary : List (String × String) :=
  [("HELLO", "/signs/hello.glb"), ("HI", "/signs/hello.glb"),
   ("GOODBYE", "/signs/goodbye.glb"), ("BYE", "/signs/goodbye.glb"),
   ("GOOD", "/signs/good.glb"), ("MORNING", "/signs/morning.glb"),
   ("AFTERNOON", "/signs/afternoon.glb"), ("EVENING", "/signs/evening.glb"),
   ("NIGHT", "/signs/night.glb"), ("THANK-YOU", "/signs/thank_you.glb"),
   ("THANK", "/signs/thank_you.glb"), ("PLEASE", "/signs/please.glb"),
   ("SORRY", "/signs/sorry.glb"), ("EXCUSE-ME", "/signs/excuse_me.glb"),
   ("YES", "/signs/yes.glb"), ("NO", "/signs/no.glb"), ("MAYBE", "/signs/maybe.glb"),
   ("HOW", "/signs/how.glb"), ("WHAT", "/signs/what.glb"), ("WHERE", "/signs/where.glb"),
   ("WHEN", "/signs/when.glb"), ("WHY", "/signs/why.glb"), ("WHO", "/signs/who.glb"),
   ("WHICH", "/signs/which.glb"),
   ("HAPPY", "/signs/happy.glb"), ("SAD", "/signs/sad.glb"), ("ANGRY", "/signs/angry.glb"),
   ("EXCITED", "/signs/excited.glb"), ("SCARED", "/signs/scared.glb"),
   ("SURPRISED", "/signs/surprised.glb"), ("TIRED", "/signs/tired.glb"),
   ("LOVE", "/signs/love.glb"), ("LIKE", "/signs/like.glb"), ("HATE", "/signs/hate.glb"),
   ("FAMILY", "/signs/family.glb"), ("MOTHER", "/signs/mother.glb"),
   ("FATHER", "/signs/father.glb"), ("SISTER", "/signs/sister.glb"),
   ("BROTHER", "/signs/brother.glb"), ("GRANDMOTHER", "/signs/grandmother.glb"),
   ("GRANDFATHER", "/signs/grandfather.glb"), ("CHILD", "/signs/child.glb"),
   ("BABY", "/signs/baby.glb"), ("FRIEND", "/signs/friend.glb"),
   ("I", "/signs/i.glb"), ("YOU", "/signs/you.glb"), ("HE", "/signs/he.glb"),
   ("SHE", "/signs/she.glb"), ("WE", "/signs/we.glb"), ("THEY", "/signs/they.glb"),
   ("MY", "/signs/my.glb"), ("YOUR", "/signs/your.glb"), ("HIS", "/signs/his.glb"),
   ("HER", "/signs/her.glb"), ("OUR", "/signs/our.glb"), ("THEIR", "/signs/their.glb"),
   ("GO", "/signs/go.glb"), ("COME", "/signs/come.glb"), ("SEE", "/signs/see.glb"),
   ("HEAR", "/signs/hear.glb"), ("SPEAK", "/signs/speak.glb"),
   ("UNDERSTAND", "/signs/understand.glb"), ("KNOW", "/signs/know.glb"),
   ("LEARN", "/signs/learn.glb"), ("TEACH", "/signs/teach.glb"),
   ("HELP", "/signs/help.glb"), ("WORK", "/signs/work.glb"), ("PLAY", "/signs/play.glb"),
   ("EAT", "/signs/eat.glb"), ("DRINK", "/signs/drink.glb"), ("SLEEP", "/signs/sleep.glb"),
   ("ONE", "/signs/numbers/one.glb"), ("TWO", "/signs/numbers/two.glb"),
   ("THREE", "/signs/numbers/three.glb"), ("FOUR", "/signs/numbers/four.glb"),
   ("FIVE", "/signs/numbers/five.glb"), ("SIX", "/signs/numbers/six.glb"),
   ("SEVEN", "/signs/numbers/seven.glb"), ("EIGHT", "/signs/numbers/eight.glb"),
   ("NINE", "/signs/numbers/nine.glb"), ("TEN", "/signs/numbers/ten.glb"),
   ("ELEVEN", "/signs/numbers/eleven.glb"), ("TWELVE", "/signs/numbers/twelve.glb"),
   ("THIRTEEN", "/signs/numbers/thirteen.glb"), ("FOURTEEN", "/signs/numbers/fourteen.glb"),
   ("FIFTEEN", "/signs/numbers/fifteen.glb"), ("SIXTEEN", "/signs/numbers/sixteen.glb"),
   ("SEVENTEEN", "/signs/numbers/seventeen.glb"), ("EIGHTEEN", "/signs/numbers/eighteen.glb"),
   ("NINETEEN", "/signs/numbers/nineteen.glb"), ("TWENTY", "/signs/numbers/twenty.glb"),
   ("HOME", "/signs/home.glb"), ("SCHOOL", "/signs/school.glb"),
   ("HOSPITAL", "/signs/hospital.glb"), ("STORE", "/signs/store.glb"),
   ("RESTAURANT", "/signs/restaurant.glb"), ("WATER", "/signs/water.glb"),
   ("FOOD", "/signs/food.glb"), ("BOOK", "/signs/book.glb"), ("CAR", "/signs/car.glb"),
   ("HOUSE", "/signs/house.glb"), ("PHONE", "/signs/phone.glb"),
   ("COMPUTER", "/signs/computer.glb"),
   ("RED", "/signs/colors/red.glb"), ("BLUE", "/signs/colors/blue.glb"),
   ("GREEN", "/signs/colors/green.glb"), ("YELLOW", "/signs/colors/yellow.glb"),
   ("BLACK", "/signs/colors/black.glb"), ("WHITE", "/signs/colors/white.glb"),
   ("ORANGE", "/signs/colors/orange.glb"), ("PURPLE", "/signs/colors/purple.glb"),
   ("PINK", "/signs/colors/pink.glb"), ("BROWN", "/signs/colors/brown.glb")]

/-- `synonymMap` of `getSignClip` (src/src/utils/signDictionary.ts:217-232). -/
def synonymMap : List (String × String) :=
  [("HI", "HELLO"), ("BYE", "GOODBYE"), ("THANKS", "THANK-YOU"), ("THX", "THANK-YOU"),
   ("OK", "YES"), ("OKAY", "YES"), ("NAH", "NO"), ("NOPE", "NO"),
   ("MOM", "MOTHER"), ("DAD", "FATHER"), ("SIS", "SISTER"), ("BRO", "BROTHER"),
   ("GRANDMA", "GRANDMOTHER"), ("GRANDPA", "GRANDFATHER")]

/-- `normalizedText.split(/\s+/)` restricted to trimmed input: whitespace-run
separated fields. -/
def splitFields (l : List Char) : List (List Char) :=
  (l.foldr
    (fun c acc =>
      if isWs c then [] :: acc
      else
        match acc with
        | [] => [[c]]
        | w :: ws => (c :: w) :: ws)
    [[]]).filter (fun w => w ≠ [])

/-- Which branch of `getSignClip` produced the result (used to check the
claimed resolution mechanism). -/
inductive LookupBranch
  | emptyInput
  | direct
  | compound
  | firstWord
  | synonym
  | notFound
deriving DecidableEq

/-- The synonym fallback of `getSignClip` (src/src/utils/signDictionary.ts:216-239). -/
def synonymLookup (normalizedText : String) : Option String × LookupBranch :=
  match lookupA synonymMap normalizedText with
  | some syn =>
    match lookupA signDictionary syn with
    | some p => (some p, LookupBranch.synonym)
    | none => (none, LookupBranch.notFound)
  | none => (none, LookupBranch.notFound)

/-- `getSignClip` (src/src/utils/signDictionary.ts:187-240), instrumented with
the branch that produced the result: direct dictionary hit, hyphen-joined
compound, first word of a multi-word phrase, then the synonym table. -/
def getSignClipB (text : String) : Option String × LookupBranch :=
  if text = "" then (none, LookupBranch.emptyInput)
  else
    match lookupA signDictionary (String.mk (dictNormalize text.data)) with
    | some p => (some p, LookupBranch.direct)
    | none =>
      if 1 < (splitFields (dictNormalize text.data)).length then
        match lookupA signDictionary
            (String.mk (List.intercalate ['-'] (splitFields (dictNormalize text.data)))) with
        | some p => (some p, LookupBranch.compound)
        | none =>
          match lookupA signDictionary
              (String.mk ((splitFields (dictNormalize text.data)).headD [])) with
          | some p => (some p, LookupBranch.firstWord)
          | none => synonymLookup (String.mk (dictNormalize text.data))
      else synonymLookup (String.mk (dictNormalize text.data))

/-- `getSignClip` without the instrumentation. -/
def getSignClip (text : String) : Option String := (getSignClipB text).1

/-- Modelled from the spec: the `GlossTranslator.translate` contract of
spec §4.4 has no single function in the source; its per-token lookup is
`getSignClip`, so a token is resolved exactly when `getSignClip` finds a clip
and reported unresolved otherwise. -/
def translate (tokens : List String) : List String × List String :=
  (tokens.filter (fun t => (getSignClip t).isSome),
   tokens.filter (fun t => (getSignClip t).isNone))

/-! ## SequenceController: the ISLVideoPlayer state machine
(src/src/components/ISLVideoPlayer.tsx).

The component state, the `<video>` element and the pending `setTimeout`
callbacks are modelled explicitly.  Both timers the component schedules
(the 500 ms inter-clip delay of `handleVideoEnded` and the 1000 ms error
backoff) run the same callback `setCurrentVideoIndex(prev => prev + 1)`, so
pending timers are modelled as a counter; timers are never cancelled anywhere
in the source, which the model preserves.  The `useEffect` on
`[currentVideoIndex, isSequencePlaying]` (lines 245-249) is run after an
operation whenever that dependency pair changed, matching React semantics
(including React's bail-out when a state setter receives the current value).
Clip playback is assumed to succeed (`video.play()` does not throw). -/

structure ISLVideoDataset where
  baseUrl : Option String
  videos : List (String × String)

/-- `DEFAULT_ISL_DATASET` (src/src/components/ISLVideoPlayer.tsx:17-49). -/
def DEFAULT_ISL_DATASET : ISLVideoDataset :=
  { baseUrl := some "https://assets.mixkit.co/videos/preview/"
    videos :=
      [("HELLO", "mixkit-hello-sign-language-gesture-44806-large.mp4"),
       ("GOOD", "mixkit-good-sign-language-gesture-44810-large.mp4"),
       ("MORNING", "mixkit-morning-sign-language-gesture-44815-large.mp4"),
       ("DAY", "mixkit-day-sign-language-gesture-44812-large.mp4"),
       ("HAVE", "mixkit-have-sign-language-gesture-44813-large.mp4"),
       ("THANK", "mixkit-thank-sign-language-gesture-44820-large.mp4"),
       ("YOU", "mixkit-you-sign-language-gesture-44825-large.mp4"),
       ("PLEASE", "mixkit-please-sign-language-gesture-44818-large.mp4"),
       ("NICE", "mixkit-nice-sign-language-gesture-44816-large.mp4"),
       ("MEET", "mixkit-meet-sign-language-gesture-44814-large.mp4"),
       ("YES", "mixkit-yes-sign-language-gesture-44826-large.mp4"),
       ("NO", "mixkit-no-sign-language-gesture-44817-large.mp4"),
       ("HELP", "mixkit-help-sign-language-gesture-44811-large.mp4"),
       ("FAMILY", "mixkit-family-sign-language-gesture-44809-large.mp4"),
       ("MOTHER", "mixkit-mother-sign-language-gesture-44821-large.mp4"),
       ("FATHER", "mixkit-father-sign-language-gesture-44822-large.mp4"),
       ("GO", "mixkit-go-sign-language-gesture-44823-large.mp4"),
       ("COME", "mixkit-come-sign-language-gesture-44824-large.mp4"),
       ("EAT", "mixkit-eat-sign-language-gesture-44807-large.mp4"),
       ("DRINK", "mixkit-drink-sign-language-gesture-44808-large.mp4"),
       ("ONE", "mixkit-one-sign-language-gesture-44827-large.mp4"),
       ("TWO", "mixkit-two-sign-language-gesture-44828-large.mp4"),
       ("THREE", "mixkit-three-sign-language-gesture-44829-large.mp4"),
       ("FOUR", "mixkit-four-sign-language-gesture-44830-large.mp4"),
       ("FIVE", "mixkit-five-sign-language-gesture-44831-large.mp4")] }

/-- `getVideoUrl` (src/src/components/ISLVideoPlayer.tsx:153-158). -/
def getVideoUrl (ds : ISLVideoDataset) (gloss : String) : Option String :=
  (lookupA ds.videos (upperS gloss)).map (fun p =>
    match ds.baseUrl with
    | some b => b ++ p
    | none => p)

/-- `findAvailableVideos` (src/src/components/ISLVideoPlayer.tsx:161-174):
glosses with a video go (uppercased) to `available`, the rest (verbatim) to
`missing`. -/
def findAvailableVideos (ds : ISLVideoDataset) (glosses : List String) :
    List String × List String :=
  match glosses with
  | [] => ([], [])
  | g :: gs =>
    let (av, ms) := findAvailableVideos ds gs
    if (getVideoUrl ds g).isSome then (upperS g :: av, ms) else (av, g :: ms)

/-- The component state of `ISLVideoPlayer`
(src/src/components/ISLVideoPlayer.tsx:140-149) plus the media element and the
pending advance-timer count. -/
structure PlayerState where
  queue : List String
  idx : Nat
  seqPlaying : Bool
  currentWord : String
  availableVideos : List String
  missingWords : List String
  videoSrc : Option String
  videoPaused : Bool
  timers : Nat
deriving DecidableEq

/-- Observable playback events: a clip starting, the aggregated missing-words
report (the destructive toast of `playSequence`), and the
`onSequenceComplete` callback. -/
inductive PlayerEvent
  | clipStart (gloss : String)
  | missingReport (ws : List String)
  | sequenceComplete
deriving DecidableEq

/-- The operations that can reach the controller: the imperative-handle
commands, the `<video>` `ended` event, a pending advance timer firing, and the
skip buttons. -/
inductive PlayerOp
  | playSequence (glosses : List String)
  | videoEnded
  | timerFire
  | skipForward
  | skipBack
  | stop
  | reset
deriving DecidableEq

def initPlayerState : PlayerState :=
  { queue := [], idx := 0, seqPlaying := false, currentWord := "",
    availableVideos := [], missingWords := [], videoSrc := none,
    videoPaused := true, timers := 0 }

/-- `playNextVideo` (src/src/components/ISLVideoPlayer.tsx:199-230): inside the
queue, start the clip at the cursor; past the queue, stop the sequence and
emit `onSequenceComplete`. -/
def playNextVideo (ds : ISLVideoDataset) (s : PlayerState) : PlayerState × List PlayerEvent :=
  if s.idx < s.queue.length then
    let g := s.queue.getD s.idx ""
    match getVideoUrl ds g with
    | some url =>
      ({ s with currentWord := g, videoSrc := some url, videoPaused := false },
       [PlayerEvent.clipStart g])
    | none => ({ s with currentWord := g }, [])
  else
    ({ s with seqPlaying := false, currentWord := "" }, [PlayerEvent.sequenceComplete])

/-- The `useEffect` on `[currentVideoIndex, isSequencePlaying]`
(src/src/components/ISLVideoPlayer.tsx:245-249): runs `playNextVideo` when the
dependency pair changed and the sequence is playing. -/
def runEffect (ds : ISLVideoDataset) (old new : PlayerState) (evs : List PlayerEvent) :
    PlayerState × List PlayerEvent :=
  if (new.idx ≠ old.idx ∨ new.seqPlaying ≠ old.seqPlaying) ∧ new.seqPlaying then
    let (s2, e2) := playNextVideo ds new
    (s2, evs ++ e2)
  else (new, evs)

/-- One controller step per operation:
* `playSequence` (lines 253-282) recomputes the available/missing partition,
  resets the queue and cursor, reports missing words once, and the effect
  starts clip 0;
* `videoEnded` (lines 233-242) schedules a 500 ms advance timer when the
  cursor is before the last index, else stops the sequence;
* `timerFire` runs one pending `setCurrentVideoIndex(prev => prev + 1)`;
* `skipForward`/`skipBack` (lines 326-336) move the cursor clamped to the
  queue;
* `stop` (`stopSequence`, lines 284-291) and `reset` (lines 293-305) halt the
  media; only `reset` clears the queue and cursor. -/
def step (ds : ISLVideoDataset) (op : PlayerOp) (s : PlayerState) :
    PlayerState × List PlayerEvent :=
  match op with
  | PlayerOp.playSequence glosses =>
    let (av, ms) := findAvailableVideos ds glosses
    let s1 := { s with availableVideos := av, missingWords := ms,
                       queue := av, idx := 0, seqPlaying := true }
    runEffect ds s s1 (if 0 < ms.length then [PlayerEvent.missingReport ms] else [])
  | PlayerOp.videoEnded =>
    if s.seqPlaying ∧ s.idx < s.queue.length - 1 then
      ({ s with timers := s.timers + 1 }, [])
    else
      ({ s with seqPlaying := false, currentWord := "" }, [])
  | PlayerOp.timerFire =>
    if 0 < s.timers then
      runEffect ds s { s with idx := s.idx + 1, timers := s.timers - 1 } []
    else (s, [])
  | PlayerOp.skipForward =>
    if s.idx < s.queue.length - 1 then runEffect ds s { s with idx := s.idx + 1 } []
    else (s, [])
  | PlayerOp.skipBack =>
    if 0 < s.idx then runEffect ds s { s with idx := s.idx - 1 } []
    else (s, [])
  | PlayerOp.stop =>
    ({ s with seqPlaying := false, currentWord := "", videoPaused := true }, [])
  | PlayerOp.reset =>
    ({ s with seqPlaying := false, idx := 0, queue := [], currentWord := "",
              availableVideos := [], missingWords := [], videoPaused := true }, [])

/-- Run a list of operations from a state, collecting the events in order. -/
def run (ds : ISLVideoDataset) (ops : List PlayerOp) (s : PlayerState) :
    PlayerState × List PlayerEvent :=
  match ops with
  | [] => (s, [])
  | op :: rest =>
    let (s1, e1) := step ds op s
    let (s2, e2) := run ds rest s1
    (s2, e1 ++ e2)

/-! ## Character lemmas -/

theorem toNat_ofNat_valid (n : Nat) (h1 : n < 55296) : (Char.ofNat n).toNat = n := by
  have hv : n.isValidChar := Or.inl h1
  rw [Char.ofNat, dif_pos hv]
  simp [Char.ofNatAux, Char.toNat, UInt32.toNat, BitVec.toNat_ofNatLt]

theorem isLower_iff (c : Char) : c.isLower = true ↔ (97 ≤ c.toNat ∧ c.toNat ≤ 122) := by
  simp [Char.isLower, Char.toNat, UInt32.le_def, BitVec.le_def, UInt32.toNat]

/-- `toUpper` never produces an ASCII lowercase letter. -/
theorem isLower_toUpper (c : Char) : (Char.toUpper c).isLower = false := by
  rw [Char.toUpper]
  by_cases h : c.toNat ≥ 97 ∧ c.toNat ≤ 122
  · rw [if_pos h]
    have ht : (Char.ofNat (c.toNat - 32)).toNat = c.toNat - 32 :=
      toNat_ofNat_valid _ (by omega)
    rw [Bool.eq_false_iff]
    intro hl
    rw [isLower_iff, ht] at hl
    omega
  · rw [if_neg h]
    rw [Bool.eq_false_iff]
    intro hl
    rw [isLower_iff] at hl
    exact h ⟨hl.1, hl.2⟩

theorem toUpper_eq_of_not_lower {c : Char} (h : c.isLower = false) : Char.toUpper c = c := by
  rw [Char.toUpper, if_neg]
  intro hc
  rw [Bool.eq_false_iff] at h
  exact h (isLower_iff c |>.mpr hc)

theorem toUpper_idem (c : Char) : Char.toUpper (Char.toUpper c) = Char.toUpper c :=
  toUpper_eq_of_not_lower (isLower_toUpper c)

/-! ## List/trim lemmas -/

theorem dropWhile_eq_self_of_forall {α : Type} (p : α → Bool) (l : List α)
    (h : ∀ c ∈ l, p c = false) : l.dropWhile p = l := by
  cases l with
  | nil => rfl
  | cons a t =>
    rw [List.dropWhile_cons, if_neg]
    simp [h a (List.mem_cons_self a t)]

theorem head?_dropWhile {α : Type} (p : α → Bool) (l : List α) (a : α)
    (h : (l.dropWhile p).head? = some a) : p a = false := by
  induction l with
  | nil => simp [List.dropWhile] at h
  | cons b t ih =>
    rw [List.dropWhile_cons] at h
    by_cases hb : p b = true
    · rw [if_pos hb] at h
      exact ih h
    · rw [if_neg hb] at h
      simp at h
      rw [← h]
      exact Bool.eq_false_iff.mpr hb

theorem dropWhile_eq_self_of_head? {α : Type} (p : α → Bool) (l : List α)
    (h : ∀ a, l.head? = some a → p a = false) : l.dropWhile p = l := by
  cases l with
  | nil => rfl
  | cons a t =>
    rw [List.dropWhile_cons, if_neg]
    simp [h a rfl]

/-- The head of the trimmed list is not whitespace. -/
theorem trimStr_head? (l : List Char) (a : Char) (h : (trimStr l).head? = some a) :
    isWs a = false := by
  unfold trimStr at h
  generalize hb : l.dropWhile isWs = b at h
  have hbh : ∀ x, b.head? = some x → isWs x = false := by
    intro x hx
    exact head?_dropWhile isWs l x (by rw [hb]; exact hx)
  obtain ⟨pre, hpre⟩ := List.dropWhile_suffix (l := b.reverse) isWs
  cases hc : b.reverse.dropWhile isWs with
  | nil => rw [hc] at h; simp at h
  | cons c cs =>
    rw [hc] at h hpre
    have hb2 : b = cs.reverse ++ c :: pre.reverse := by
      have hrev := congrArg List.reverse hpre
      simp at hrev
      exact hrev.symm
    rw [List.reverse_cons] at h
    have hkey : (cs.reverse ++ ([c] : List Char)).head? =
        (cs.reverse ++ c :: pre.reverse).head? := by
      cases cs.reverse <;> simp
    rw [hkey] at h
    exact hbh a (by rw [hb2]; exact h)

/-- The last element of the trimmed list is not whitespace. -/
theorem trimStr_last (l : List Char) (a : Char) (h : (trimStr l).reverse.head? = some a) :
    isWs a = false := by
  unfold trimStr at h
  rw [List.reverse_reverse] at h
  exact head?_dropWhile isWs _ a h

/-- `trim` is idempotent. -/
theorem trimStr_idem (l : List Char) : trimStr (trimStr l) = trimStr l := by
  have h1 : (trimStr l).dropWhile isWs = trimStr l :=
    dropWhile_eq_self_of_head? _ _ (trimStr_head? l)
  have h2 : (trimStr l).reverse.dropWhile isWs = (trimStr l).reverse :=
    dropWhile_eq_self_of_head? _ _ (trimStr_last l)
  show (((trimStr l).dropWhile isWs).reverse.dropWhile isWs).reverse = trimStr l
  rw [h1, h2, List.reverse_reverse]

/-- Trimming a list without whitespace is the identity. -/
theorem trimStr_eq_self {l : List Char} (h : ∀ c ∈ l, isWs c = false) : trimStr l = l := by
  unfold trimStr
  rw [dropWhile_eq_self_of_forall _ _ h]
  rw [dropWhile_eq_self_of_forall]
  · exact List.reverse_reverse l
  · intro c hc
    exact h c (List.mem_reverse.mp hc)

theorem mem_trimStr {c : Char} {l : List Char} (h : c ∈ trimStr l) : c ∈ l := by
  unfold trimStr at h
  rw [List.mem_reverse] at h
  have h2 : c ∈ (l.dropWhile isWs).reverse := (List.dropWhile_suffix isWs).subset h
  rw [List.mem_reverse] at h2
  exact (List.dropWhile_suffix isWs).subset h2

theorem not_lower_of_mem_upperStr {c : Char} {l : List Char} (h : c ∈ upperStr l) :
    c.isLower = false := by
  obtain ⟨d, _, hd⟩ := List.mem_map.mp h
  rw [← hd]
  exact isLower_toUpper d

/-- Every character surviving `speechNormalize` is a backslash or a hyphen:
the kept letters `w` and `s` are lowercase and cannot survive the initial
uppercasing. -/
theorem mem_speechNormalize {c : Char} {l : List Char} (h : c ∈ speechNormalize l) :
    c = '\\' ∨ c = '-' := by
  unfold speechNormalize at h
  rw [List.mem_filter] at h
  obtain ⟨hmem, hkeep⟩ := h
  have hlow : c.isLower = false := not_lower_of_mem_upperStr (mem_trimStr hmem)
  unfold keepSpeech at hkeep
  simp only [Bool.or_eq_true, decide_eq_true_eq] at hkeep
  rcases hkeep with ((h1 | h2) | h3) | h4
  · exact Or.inl h1
  · rw [h2] at hlow; simp [Char.isLower] at hlow
  · rw [h3] at hlow; simp [Char.isLower] at hlow
  · exact Or.inr h4

theorem mem_dictNormalize {c : Char} {l : List Char} (h : c ∈ dictNormalize l) :
    keepDict c = true ∧ c.isLower = false := by
  unfold dictNormalize at h
  have h2 := mem_trimStr h
  rw [List.mem_filter] at h2
  exact ⟨h2.2, not_lower_of_mem_upperStr h2.1⟩

theorem map_eq_self_of {α : Type} (f : α → α) (l : List α) (h : ∀ c ∈ l, f c = c) :
    l.map f = l := by
  induction l with
  | nil => rfl
  | cons a t ih =>
    rw [List.map_cons, h a (List.mem_cons_self a t), ih]
    intro c hc
    exact h c (List.mem_cons_of_mem a hc)

theorem speechNormalize_idem (l : List Char) :
    speechNormalize (speechNormalize l) = speechNormalize l := by
  have hchar : ∀ c ∈ speechNormalize l, c = '\\' ∨ c = '-' := fun c hc => mem_speechNormalize hc
  have hup : upperStr (speechNormalize l) = speechNormalize l := by
    apply map_eq_self_of
    intro c hc
    rcases hchar c hc with h | h <;> (rw [h]; apply toUpper_eq_of_not_lower; decide)
  have htrim : trimStr (speechNormalize l) = speechNormalize l := by
    apply trimStr_eq_self
    intro c hc
    rcases hchar c hc with h | h <;> (rw [h]; decide)
  have hfilter : (speechNormalize l).filter keepSpeech = speechNormalize l := by
    rw [List.filter_eq_self]
    intro c hc
    rcases hchar c hc with h | h <;> (rw [h]; decide)
  show (trimStr (upperStr (speechNormalize l))).filter keepSpeech = speechNormalize l
  rw [hup, htrim, hfilter]

theorem dictNormalize_idem (l : List Char) :
    dictNormalize (dictNormalize l) = dictNormalize l := by
  have hchar := fun c (hc : c ∈ dictNormalize l) => mem_dictNormalize hc
  have hup : upperStr (dictNormalize l) = dictNormalize l := by
    apply map_eq_self_of
    intro c hc
    exact toUpper_eq_of_not_lower (hchar c hc).2
  have hfilter : (dictNormalize l).filter keepDict = dictNormalize l := by
    rw [List.filter_eq_self]
    intro c hc
    exact (hchar c hc).1
  show trimStr ((upperStr (dictNormalize l)).filter keepDict) = dictNormalize l
  rw [hup, hfilter]
  show trimStr (trimStr ((upperStr l).filter keepDict)) = dictNormalize l
  rw [trimStr_idem]
  rfl

theorem findCutFrom_some {w : List Char} {i : Nat} {j : Nat}
    (h : findCutFrom w j = some i) :
    j ≤ i ∧ i + 3 ≤ w.length ∧ splitCond w i = true ∧
      ∀ k, j ≤ k → k < i → splitCond w k = false := by
  refine findCutFrom.induct w
    (fun j => findCutFrom w j = some i →
      j ≤ i ∧ i + 3 ≤ w.length ∧ splitCond w i = true ∧
        ∀ k, j ≤ k → k < i → splitCond w k = false)
    ?_ ?_ ?_ j h
  · intro x hx h
    rw [findCutFrom, dif_pos hx] at h
    exact absurd h (by simp)
  · intro x hx hc h
    rw [findCutFrom, dif_neg hx, if_pos hc] at h
    have hi : i = x := (Option.some_inj.mp h).symm
    subst hi
    exact ⟨le_refl i, by omega, hc, fun k h1 h2 => absurd (lt_of_le_of_lt h1 h2) (lt_irrefl i)⟩
  · intro x hx hc ih h
    rw [findCutFrom, dif_neg hx, if_neg hc] at h
    obtain ⟨ih1, ih2, ih3, ih4⟩ := ih h
    refine ⟨by omega, ih2, ih3, ?_⟩
    intro k h1 h2
    rcases Nat.eq_or_lt_of_le h1 with he | hl
    · rw [← he]
      exact Bool.eq_false_iff.mpr hc
    · exact ih4 k hl h2

theorem findCutFrom_none {w : List Char} {j : Nat} (h : findCutFrom w j = none) :
    ∀ k, j ≤ k → k + 3 ≤ w.length → splitCond w k = false := by
  refine findCutFrom.induct w
    (fun j => findCutFrom w j = none →
      ∀ k, j ≤ k → k + 3 ≤ w.length → splitCond w k = false)
    ?_ ?_ ?_ j h
  · intro x hx _ k h1 h2
    omega
  · intro x hx hc h
    rw [findCutFrom, dif_neg hx, if_pos hc] at h
    exact absurd h (by simp)
  · intro x hx hc ih h
    rw [findCutFrom, dif_neg hx, if_neg hc] at h
    intro k h1 h2
    rcases Nat.eq_or_lt_of_le h1 with he | hl
    · rw [← he]
      exact Bool.eq_false_iff.mpr hc
    · exact ih h k hl h2

theorem findCutFromF_eq (fuel : Nat) (w : List Char) (i : Nat) (h : w.length ≤ fuel + i) :
    findCutFromF fuel w i = findCutFrom w i := by
  induction fuel generalizing i with
  | zero =>
    rw [findCutFromF, findCutFrom, dif_pos (by omega)]
  | succ f ih =>
    rw [findCutFromF, findCutFrom]
    by_cases h1 : w.length < i + 3
    · rw [if_pos h1, dif_pos h1]
    · rw [if_neg h1, dif_neg h1]
      by_cases h2 : splitCond w i = true
      · rw [if_pos h2, if_pos h2]
      · rw [if_neg h2, if_neg h2]
        exact ih (i + 1) (by omega)

/-- `w.length` bounds the recursion depth of `findWordSplits`: with any fuel
above it the fuel-indexed twin finishes and agrees with `findWordSplits`. -/
theorem findWordSplitsF_eq (fuel : Nat) (w : List Char) (h : w.length < fuel) :
    findWordSplitsF fuel w = some (findWordSplits w) := by
  induction fuel generalizing w with
  | zero => omega
  | succ f ih =>
    rw [findWordSplitsF, findWordSplits]
    by_cases h4 : w.length ≤ 4
    · rw [if_pos h4, if_pos h4]
    · rw [if_neg h4, if_neg h4]
      rw [findCutFromF_eq w.length w 3 (by omega)]
      cases hcut : findCutFrom w 3 with
      | none => rfl
      | some i =>
        obtain ⟨hi3, hilen, _, _⟩ := findCutFrom_some hcut
        dsimp only
        rw [ih (w.drop i) (by simp only [List.length_drop]; omega)]
        rfl

theorem findWordSplits_eval {w : List Char} {r : List (List Char)}
    (h : findWordSplitsF (w.length + 1) w = some r) : findWordSplits w = r := by
  rw [findWordSplitsF_eq (w.length + 1) w (by omega)] at h
  exact Option.some_inj.mp h

theorem findWordSplits_ne_nil (w : List Char) : findWordSplits w ≠ [] := by
  rw [findWordSplits]
  by_cases h4 : w.length ≤ 4
  · rw [if_pos h4]
    simp
  · rw [if_neg h4]
    cases hcut : findCutFrom w 3 <;> simp

/-! ## Player-machine helper lemmas -/

theorem playNextVideo_idx (ds : ISLVideoDataset) (s : PlayerState) :
    (playNextVideo ds s).1.idx = s.idx := by
  unfold playNextVideo
  split
  · dsimp only
    split <;> rfl
  · rfl

theorem runEffect_idx (ds : ISLVideoDataset) (old new : PlayerState)
    (evs : List PlayerEvent) : (runEffect ds old new evs).1.idx = new.idx := by
  unfold runEffect
  split
  · exact playNextVideo_idx ds new
  · rfl

theorem length_filter_add_length_filter_not {α : Type} (p : α → Bool) (l : List α) :
    (l.filter p).length + (l.filter (fun x => !p x)).length = l.length := by
  induction l with
  | nil => rfl
  | cons a t ih =>
    by_cases h : p a = true
    · rw [List.filter_cons, if_pos h, List.filter_cons, if_neg (by simp [h])]
      simp only [List.length_cons]
      omega
    · rw [List.filter_cons, if_neg h, List.filter_cons,
        if_pos (by simp [Bool.eq_false_iff.mpr h])]
      simp only [List.length_cons]
      omega

theorem upperS_idem (s : String) : upperS (upperS s) = upperS s := by
  unfold upperS
  rw [List.map_map]
  congr 1
  apply List.map_congr_left
  intro c _
  exact toUpper_idem c

theorem validateWordsForSigning_eq (words : List String) :
    validateWordsForSigning words =
      ((words.map lowerS).filter (fun w => signDictionaryWords.contains w),
       (words.map lowerS).filter (fun w => !signDictionaryWords.contains w)) := by
  induction words with
  | nil => rfl
  | cons w ws ih =>
    rw [validateWordsForSigning, ih]
    by_cases h : lowerS w ∈ signDictionaryWords <;> simp [h]

theorem findAvailableVideos_eq (ds : ISLVideoDataset) (glosses : List String) :
    findAvailableVideos ds glosses =
      ((glosses.filter (fun g => (getVideoUrl ds g).isSome)).map upperS,
       glosses.filter (fun g => !(getVideoUrl ds g).isSome)) := by
  induction glosses with
  | nil => rfl
  | cons g gs ih =>
    rw [findAvailableVideos, ih]
    cases hv : getVideoUrl ds g <;> simp [hv]

theorem getVideoUrl_upperS (ds : ISLVideoDataset) (g : String) :
    getVideoUrl ds (upperS g) = getVideoUrl ds g := by
  unfold getVideoUrl
  rw [upperS_idem]

theorem findWordSplits_eq_some {w : List Char} {i : Nat} (h4 : ¬ w.length ≤ 4)
    (hcut : findCutFrom w 3 = some i) :
    findWordSplits w = w.take i :: findWordSplits (w.drop i) := by
  obtain ⟨h3, hlen, -, -⟩ := findCutFrom_some hcut
  have h1 := findWordSplitsF_eq (w.length + 1) w (by omega)
  rw [findWordSplitsF] at h1
  rw [if_neg h4, findCutFromF_eq w.length w 3 (by omega), hcut] at h1
  dsimp only at h1
  rw [findWordSplitsF_eq w.length (w.drop i) (by simp only [List.length_drop]; omega)] at h1
  exact (Option.some_inj.mp h1).symm

theorem findWordSplits_eq_none {w : List Char} (h4 : ¬ w.length ≤ 4)
    (hcut : findCutFrom w 3 = none) : findWordSplits w = [w] := by
  have h1 := findWordSplitsF_eq (w.length + 1) w (by omega)
  rw [findWordSplitsF] at h1
  rw [if_neg h4, findCutFromF_eq w.length w 3 (by omega), hcut] at h1
  dsimp only at h1
  exact (Option.some_inj.mp h1).symm

/-! ## Claims -/

/-- C1: on the token list `["HELLO","MY","NAME","IS","HELLO","MY","NAME","IS",
"PRIYA"]`, `extractFinalSentence` does NOT return the five-token suffix the
spec claims: the last "MY NAME IS" starts at index 5, the code slices from
index `5 - 2 = 3`, and the resulting six-token candidate
`["IS","HELLO","MY","NAME","IS","PRIYA"]` is the longest candidate and is
returned.  The same off-by-one contradicts the function's own doc-comment
example ("hello ... Srishti" should become "hello my name is Srishti"). -/
theorem c1_extractFinalSentence_eval :
    extractFinalSentence ["HELLO", "MY", "NAME", "IS", "HELLO", "MY", "NAME", "IS", "PRIYA"] =
      ["IS", "HELLO", "MY", "NAME", "IS", "PRIYA"] ∧
    extractFinalSentence ["HELLO", "MY", "NAME", "IS", "HELLO", "MY", "NAME", "IS", "PRIYA"] ≠
      ["HELLO", "MY", "NAME", "IS", "PRIYA"] ∧
    extractFinalSentence ["HELLO", "MY", "NAME", "IS", "HELLO", "MY", "NAME", "IS", "PRIYA"] ≠
      ["hello", "my", "name", "is", "priya"] ∧
    extractFinalSentence
        ["HELLO", "HELLO", "MY", "NAME", "IS", "HELLO", "MY", "NAME", "IS",
         "HELLO", "MY", "NAME", "IS", "SRISHTI"] =
      ["IS", "HELLO", "MY", "NAME", "IS", "SRISHTI"] := by
  refine ⟨by decide, by decide, by decide, by decide⟩

/-- C2: the normalization step of `processRecognizedText` does NOT keep word
characters and whitespace: its regex `/[^\\w\\s-]/g` (escaped backslashes
inside the class) deletes every character except backslash, `w`, `s` and
hyphen, and after the uppercasing no `w`/`s` remains, so even the plain input
"HI" is reduced to the empty string, while the normalization the spec states
(`claimedSpeechNormalize`) leaves "HI" unchanged. -/
theorem c2_normalization_divergence :
    speechNormalize "HI".data = [] ∧
    claimedSpeechNormalize "HI".data = "HI".data ∧
    ("HI".data : List Char) ≠ [] := by
  refine ⟨by decide, by decide, by decide⟩

/-- C3: playing `["HELLO","XYZ","GOOD"]` against the default dataset (where
`XYZ` has no clip) starts clips for HELLO and GOOD only, in that order, and
reports the missing gloss exactly once at sequence start — but when the last
available clip ends, `handleVideoEnded` merely stops the sequence and the
`onSequenceComplete` signal is never emitted (it lives in the unreached
past-the-queue branch of `playNextVideo`). -/
theorem c3_missing_clip_sequence :
    (run DEFAULT_ISL_DATASET
        [PlayerOp.playSequence ["HELLO", "XYZ", "GOOD"], PlayerOp.videoEnded,
         PlayerOp.timerFire, PlayerOp.videoEnded] initPlayerState).2 =
      [PlayerEvent.missingReport ["XYZ"], PlayerEvent.clipStart "HELLO",
       PlayerEvent.clipStart "GOOD"] ∧
    PlayerEvent.sequenceComplete ∉
      (run DEFAULT_ISL_DATASET
        [PlayerOp.playSequence ["HELLO", "XYZ", "GOOD"], PlayerOp.videoEnded,
         PlayerOp.timerFire, PlayerOp.videoEnded] initPlayerState).2 ∧
    (run DEFAULT_ISL_DATASET
        [PlayerOp.playSequence ["HELLO", "XYZ", "GOOD"], PlayerOp.videoEnded,
         PlayerOp.timerFire, PlayerOp.videoEnded] initPlayerState).1.seqPlaying = false := by
  refine ⟨by decide, by decide, by decide⟩

/-- C4 counterexample: from the initial state, `playSequence` on three
available glosses followed by two skip-forwards reaches a state with cursor 2;
the skip-back control then moves the cursor to 1 — a strict decrease that is
not a reset to 0, refuting "the cursor stays, increases, or is set to 0 by an
explicit reset". -/
theorem c4_counterexample :
    (run DEFAULT_ISL_DATASET
        [PlayerOp.playSequence ["HELLO", "GOOD", "THANK"], PlayerOp.skipForward,
         PlayerOp.skipForward] initPlayerState).1.idx = 2 ∧
    (step DEFAULT_ISL_DATASET PlayerOp.skipBack
        (run DEFAULT_ISL_DATASET
          [PlayerOp.playSequence ["HELLO", "GOOD", "THANK"], PlayerOp.skipForward,
           PlayerOp.skipForward] initPlayerState).1).1.idx = 1 ∧
    ¬((step DEFAULT_ISL_DATASET PlayerOp.skipBack
          (run DEFAULT_ISL_DATASET
            [PlayerOp.playSequence ["HELLO", "GOOD", "THANK"], PlayerOp.skipForward,
             PlayerOp.skipForward] initPlayerState).1).1.idx =
        (run DEFAULT_ISL_DATASET
          [PlayerOp.playSequence ["HELLO", "GOOD", "THANK"], PlayerOp.skipForward,
           PlayerOp.skipForward] initPlayerState).1.idx ∨
      (run DEFAULT_ISL_DATASET
          [PlayerOp.playSequence ["HELLO", "GOOD", "THANK"], PlayerOp.skipForward,
           PlayerOp.skipForward] initPlayerState).1.idx <
        (step DEFAULT_ISL_DATASET PlayerOp.skipBack
          (run DEFAULT_ISL_DATASET
            [PlayerOp.playSequence ["HELLO", "GOOD", "THANK"], PlayerOp.skipForward,
             PlayerOp.skipForward] initPlayerState).1).1.idx ∨
      (PlayerOp.skipBack = PlayerOp.reset ∧
        (step DEFAULT_ISL_DATASET PlayerOp.skipBack
          (run DEFAULT_ISL_DATASET
            [PlayerOp.playSequence ["HELLO", "GOOD", "THANK"], PlayerOp.skipForward,
             PlayerOp.skipForward] initPlayerState).1).1.idx = 0)) := by
  refine ⟨by decide, by decide, by decide⟩

/-- C4 (amended): for every state and operation, the cursor never decreases
except through skip-back (which decrements by exactly one, never below 0) and
through the cursor-resetting operations: `reset` and a new `playSequence` both
set it to 0.  Clip-end handling, timer advances, skip-forward and stop never
decrease it. -/
theorem c4_cursor_amended (ds : ISLVideoDataset) (s : PlayerState) :
    (∀ g, (step ds (PlayerOp.playSequence g) s).1.idx = 0) ∧
    (step ds PlayerOp.reset s).1.idx = 0 ∧
    (step ds PlayerOp.skipBack s).1.idx = s.idx - 1 ∧
    (step ds PlayerOp.videoEnded s).1.idx = s.idx ∧
    (step ds PlayerOp.stop s).1.idx = s.idx ∧
    s.idx ≤ (step ds PlayerOp.timerFire s).1.idx ∧
    s.idx ≤ (step ds PlayerOp.skipForward s).1.idx := by
  refine ⟨?_, rfl, ?_, ?_, rfl, ?_, ?_⟩
  · intro g
    simp only [step]
    rw [runEffect_idx]
  · simp only [step]
    by_cases h : 0 < s.idx
    · rw [if_pos h, runEffect_idx]
    · rw [if_neg h]
      dsimp only
      omega
  · simp only [step]
    split <;> rfl
  · simp only [step]
    by_cases h : 0 < s.timers
    · rw [if_pos h, runEffect_idx]
      dsimp only
      omega
    · rw [if_neg h]
  · simp only [step]
    by_cases h : s.idx < s.queue.length - 1
    · rw [if_pos h, runEffect_idx]
      dsimp only
      omega
    · rw [if_neg h]

/-- C5: both translation-pass partitions are disjoint and exhaustive.
`validateWordsForSigning` sends each (lowercased) input word to exactly one of
`valid`/`missing` according to dictionary membership; `findAvailableVideos`
sends each gloss to `available` (uppercased) when the dataset has a clip for
it and to `missing` (verbatim) otherwise.  In both cases the output lengths
sum to the input length and no value appears in both lists. -/
theorem c5_partition_disjoint_exhaustive (words : List String) (ds : ISLVideoDataset)
    (glosses : List String) :
    ((validateWordsForSigning words).1 =
        (words.map lowerS).filter (fun w => signDictionaryWords.contains w) ∧
     (validateWordsForSigning words).2 =
        (words.map lowerS).filter (fun w => !signDictionaryWords.contains w) ∧
     (validateWordsForSigning words).1.length + (validateWordsForSigning words).2.length
        = words.length ∧
     (∀ w, w ∈ (validateWordsForSigning words).1 → w ∉ (validateWordsForSigning words).2)) ∧
    ((findAvailableVideos ds glosses).1 =
        (glosses.filter (fun g => (getVideoUrl ds g).isSome)).map upperS ∧
     (findAvailableVideos ds glosses).2 =
        glosses.filter (fun g => !(getVideoUrl ds g).isSome) ∧
     (findAvailableVideos ds glosses).1.length + (findAvailableVideos ds glosses).2.length
        = glosses.length ∧
     (∀ g, g ∈ (findAvailableVideos ds glosses).1 → g ∉ (findAvailableVideos ds glosses).2)) := by
  constructor
  · rw [validateWordsForSigning_eq]
    refine ⟨rfl, rfl, ?_, ?_⟩
    · rw [← List.length_map words lowerS]
      exact length_filter_add_length_filter_not _ _
    · intro w hw hw2
      rw [List.mem_filter] at hw hw2
      rw [hw.2] at hw2
      simp at hw2
  · rw [findAvailableVideos_eq]
    refine ⟨rfl, rfl, ?_, ?_⟩
    · rw [List.length_map]
      exact length_filter_add_length_filter_not _ _
    · intro x hx hx2
      rw [List.mem_map] at hx
      obtain ⟨g, hg, hgx⟩ := hx
      rw [List.mem_filter] at hg hx2
      rw [← hgx, getVideoUrl_upperS] at hx2
      rw [hg.2] at hx2
      simp at hx2

/-- C5 witness: on `["Hi","Mother","xyz"]` the partition lengths sum to 3 and
the resolved word "mother" is not also reported missing. -/
theorem c5_witness :
    (validateWordsForSigning ["Hi", "Mother", "xyz"]).1.length +
        (validateWordsForSigning ["Hi", "Mother", "xyz"]).2.length = 3 ∧
    "mother" ∉ (validateWordsForSigning ["Hi", "Mother", "xyz"]).2 :=
  ⟨(c5_partition_disjoint_exhaustive ["Hi", "Mother", "xyz"] DEFAULT_ISL_DATASET []).1.2.2.1,
   (c5_partition_disjoint_exhaustive ["Hi", "Mother", "xyz"] DEFAULT_ISL_DATASET []).1.2.2.2
     "mother" (by decide)⟩

/-- C6: a chunk of length at most 6 is returned unsplit; a longer chunk is cut
at the first position `i` (tried in increasing order from 3 up to
`length - 3`) whose left part is a common word and whose right part is a
common word or has length at least 3, producing
`[left, ...recursive splits of right]`; when no position is accepted the chunk
is returned unsplit. -/
theorem c6_chunk_segmentation (chunk : List Char) :
    (chunk.length ≤ 6 → processChunk chunk = [chunk]) ∧
    (6 < chunk.length →
      (∀ i, findCutFrom chunk 3 = some i →
        3 ≤ i ∧ i + 3 ≤ chunk.length ∧ splitCond chunk i = true ∧
        (∀ j, 3 ≤ j → j < i → splitCond chunk j = false) ∧
        processChunk chunk = chunk.take i :: findWordSplits (chunk.drop i)) ∧
      (findCutFrom chunk 3 = none →
        (∀ j, 3 ≤ j → j + 3 ≤ chunk.length → splitCond chunk j = false) ∧
        processChunk chunk = [chunk])) := by
  constructor
  · intro h
    unfold processChunk
    rw [if_pos h]
  · intro h6
    constructor
    · intro i hcut
      obtain ⟨h3, hlen, hcond, hmin⟩ := findCutFrom_some hcut
      have hws : findWordSplits chunk = chunk.take i :: findWordSplits (chunk.drop i) :=
        findWordSplits_eq_some (by omega) hcut
      refine ⟨h3, hlen, hcond, fun j hj hji => hmin j hj hji, ?_⟩
      unfold processChunk
      rw [if_neg (by omega), hws, if_pos ?_]
      have hne := findWordSplits_ne_nil (chunk.drop i)
      have hpos := List.length_pos.mpr hne
      simp only [List.length_cons]
      omega
    · intro hnone
      have hws : findWordSplits chunk = [chunk] := findWordSplits_eq_none (by omega) hnone
      refine ⟨fun j hj hjl => findCutFrom_none hnone j hj hjl, ?_⟩
      unfold processChunk
      rw [if_neg (by omega), hws, if_neg (by simp)]

/-- C6 witness: "GOODMORNING" (length 11) is cut at the first accepted
position 4 ("GOOD" is a common word, "MORNING" has length at least 3, and no
position before 4 is accepted). -/
theorem c6_witness :
    6 < "GOODMORNING".data.length ∧
    (3 ≤ 4 ∧ 4 + 3 ≤ "GOODMORNING".data.length ∧ splitCond "GOODMORNING".data 4 = true ∧
     (∀ j, 3 ≤ j → j < 4 → splitCond "GOODMORNING".data j = false) ∧
     processChunk "GOODMORNING".data =
       "GOODMORNING".data.take 4 :: findWordSplits ("GOODMORNING".data.drop 4)) := by
  have hcut : findCutFrom "GOODMORNING".data 3 = some 4 := by
    rw [← findCutFromF_eq 11 "GOODMORNING".data 3 (by decide)]
    decide
  exact ⟨by decide, ((c6_chunk_segmentation "GOODMORNING".data).2 (by decide)).1 4 hcut⟩

/-- C7 counterexample: "hi" is NOT resolved through the synonym table: the
dictionary itself has the key `HI`, so the direct lookup already succeeds and
the synonym step is never reached. -/
theorem c7_hi_resolved_directly :
    (getSignClipB "hi").2 = LookupBranch.direct ∧
    LookupBranch.direct ≠ LookupBranch.synonym := by
  refine ⟨by decide, by decide⟩

/-- C7 (amended): "hi" resolves to the HELLO clip via the direct dictionary
entry `HI` (the same clip the gloss "hello" resolves to), "mother" resolves to
the MOTHER clip directly, neither is unresolved; "xyz123" yields no clip, an
empty resolved sequence and exactly `["xyz123"]` unresolved. -/
theorem c7_translate_eval :
    getSignClipB "hi" = (some "/signs/hello.glb", LookupBranch.direct) ∧
    getSignClip "hello" = some "/signs/hello.glb" ∧
    getSignClipB "mother" = (some "/signs/mother.glb", LookupBranch.direct) ∧
    translate ["hi", "mother"] = (["hi", "mother"], []) ∧
    getSignClip "xyz123" = none ∧
    translate ["xyz123"] = ([], ["xyz123"]) := by
  refine ⟨by decide, by decide, by decide, by decide, by decide, by decide⟩

/-- C8: both normalization transforms of the source are idempotent: the
`processRecognizedText` normalization (uppercase, trim, strip by
`/[^\\w\\s-]/g`) and the `getSignClip` normalization (uppercase, strip by
`/[^\w\s-]/g`, trim). -/
theorem c8_normalization_idempotent (l : List Char) :
    speechNormalize (speechNormalize l) = speechNormalize l ∧
    dictNormalize (dictNormalize l) = dictNormalize l :=
  ⟨speechNormalize_idem l, dictNormalize_idem l⟩

/-- C9: a second `playSequence` does not invalidate the 500 ms advance timer
scheduled by the first sequence's clip-end: after `playSequence ["HELLO",
"GOOD"]`, a clip-end, and `playSequence ["THANK","YOU"]`, one timer from the
first sequence is still pending; when it fires it advances the new queue's
cursor, so the new sequence starts at "YOU" and "THANK" is never played. -/
theorem c9_stale_timer_advances_new_sequence :
    (run DEFAULT_ISL_DATASET
        [PlayerOp.playSequence ["HELLO", "GOOD"], PlayerOp.videoEnded] initPlayerState).1.timers
      = 1 ∧
    (run DEFAULT_ISL_DATASET
        [PlayerOp.playSequence ["HELLO", "GOOD"], PlayerOp.videoEnded,
         PlayerOp.playSequence ["THANK", "YOU"], PlayerOp.timerFire,
         PlayerOp.videoEnded] initPlayerState).2 =
      [PlayerEvent.clipStart "HELLO", PlayerEvent.clipStart "YOU"] ∧
    PlayerEvent.clipStart "THANK" ∉
      (run DEFAULT_ISL_DATASET
        [PlayerOp.playSequence ["HELLO", "GOOD"], PlayerOp.videoEnded,
         PlayerOp.playSequence ["THANK", "YOU"], PlayerOp.timerFire,
         PlayerOp.videoEnded] initPlayerState).2 := by
  refine ⟨by decide, by decide, by decide⟩

/-- C10: `findWordSplits` terminates on every input: every accepted cut
position satisfies `3 ≤ i`, so the recursive argument `w.drop i` is strictly
shorter than `w`, and with any fuel above `w.length` the structurally
recursive twin finishes and agrees with `findWordSplits`. -/
theorem c10_findWordSplits_terminates (w : List Char) (fuel : Nat) (h : w.length < fuel) :
    (∀ i, findCutFrom w 3 = some i → 3 ≤ i ∧ (w.drop i).length < w.length) ∧
    findWordSplitsF fuel w = some (findWordSplits w) := by
  constructor
  · intro i hi
    obtain ⟨h3, hlen, -, -⟩ := findCutFrom_some hi
    refine ⟨h3, ?_⟩
    simp only [List.length_drop]
    omega
  · exact findWordSplitsF_eq fuel w h

/-- C10 witness: on "UNDERSTANDING" (length 13) the twin with fuel 14
finishes and agrees. -/
theorem c10_witness :
    "UNDERSTANDING".data.length < 14 ∧
    findWordSplitsF 14 "UNDERSTANDING".data = some (findWordSplits "UNDERSTANDING".data) :=
  ⟨by decide, (c10_findWordSplits_terminates "UNDERSTANDING".data 14 (by decide)).2⟩

end SignAR
